import Mathlib

/-!
Verification of the SleuthCPS offset-resolution engine
(source: Scripts/sleuthCPS.py).

The development shallowly embeds the engine's data model and operations:
the binary image is a list of bytes, the schema is an insertion-ordered
association list of structure descriptors, and the two duplicated
implementations of the metadata probe and the recursive offset resolver
(class SleuthParser, embedded under the name Batch, and class
InteractiveSleuth, embedded under the name Interactive) are translated
function by function.  Python specifics that the code relies on are
modelled explicitly: slice semantics including negative indices,
little-endian int.from_bytes, truthiness of strings, and int(s, 0)
literal parsing.
-/

/-- Little-endian byte decoding, as Python int.from_bytes(bs, 'little').
The empty list decodes to 0. -/
def fromBytesLE : List Nat → Nat
  | [] => 0
  | b :: rest => b + 256 * fromBytesLE rest

/-- Python slice bd[a:b] (step 1) on a byte list, including the clamping
and negative-index wrap-around of Python slicing. -/
def pySlice (bd : List Nat) (a b : Int) : List Nat :=
  let n : Int := (bd.length : Int)
  let lo : Nat := (if a < 0 then max (n + a) 0 else min a n).toNat
  let hi : Nat := (if b < 0 then max (n + b) 0 else min b n).toNat
  (bd.take hi).drop lo

/-- Value of a single hexadecimal digit character, if any. -/
def digitVal? (c : Char) : Option Nat :=
  if '0' ≤ c ∧ c ≤ '9' then some (c.toNat - '0'.toNat)
  else if 'a' ≤ c ∧ c ≤ 'f' then some (c.toNat - 'a'.toNat + 10)
  else if 'A' ≤ c ∧ c ≤ 'F' then some (c.toNat - 'A'.toNat + 10)
  else none

/-- Value of a nonempty digit string in the given base; none on an empty
string or a character that is not a digit below the base. -/
def digitsVal (base : Nat) (cs : List Char) : Option Nat :=
  match cs with
  | [] => none
  | _ =>
    cs.foldl
      (fun acc c =>
        match acc, digitVal? c with
        | some a, some d => if d < base then some (a * base + d) else none
        | _, _ => none)
      (some 0)

/-- ASCII whitespace, for the stripping that Python str.strip and int()
perform. -/
def isSpaceChar (c : Char) : Bool :=
  c = ' ' || c = '\t' || c = '\n' || c = '\r'

/-- Strip leading and trailing ASCII whitespace from a character list. -/
def stripChars (cs : List Char) : List Char :=
  ((cs.dropWhile isSpaceChar).reverse.dropWhile isSpaceChar).reverse

/-- Unsigned body of a Python base-0 integer literal: 0x/0o/0b prefixes,
plain decimal, and the base-0 rule that a nonzero decimal may not have a
leading zero (all-zero strings are allowed).  Digit-group underscores are
not modelled. -/
def pyIntCore : List Char → Option Nat
  | '0' :: c :: rest =>
    if c = 'x' ∨ c = 'X' then digitsVal 16 rest
    else if c = 'o' ∨ c = 'O' then digitsVal 8 rest
    else if c = 'b' ∨ c = 'B' then digitsVal 2 rest
    else if (c :: rest).all (fun d => d = '0') then some 0
    else none
  | cs => digitsVal 10 cs

/-- Python int(s.strip(), 0), as used by parse_num and by
int(structure['offset'], 0) in the source: optional sign, any base by
prefix.  Returns none where Python raises ValueError. -/
def pyIntBase0 (s : String) : Option Int :=
  match stripChars s.data with
  | '+' :: rest => (pyIntCore rest).map (fun n => (n : Int))
  | '-' :: rest => (pyIntCore rest).map (fun n => -(n : Int))
  | cs => (pyIntCore cs).map (fun n => (n : Int))

/-- Python f-string "0x{v:X}": the hexadecimal literal the source writes
into corrected CSV rows (uppercase digits; a negative value formats with
the sign after the 0x prefix, as Python's format does). -/
def hexLit (v : Int) : String :=
  "0x" ++ (if v < 0 then "-" else "") ++
    String.mk ((Nat.toDigits 16 v.natAbs).map Char.toUpper)

/-- One schema row (Structure Descriptor): the four attribute columns of
a CSV entry, each a stripped string; "" models a missing/blank field,
matching the falsy dict.get checks in the source. -/
structure StructDesc where
  offset : String
  size : String
  rOffset : String
  parent : String
deriving DecidableEq, Repr

/-- Lookup in an insertion-ordered association list (Python dict read). -/
def alget {α : Type} : List (String × α) → String → Option α
  | [], _ => none
  | (k, v) :: rest, key => if k = key then some v else alget rest key

/-- Write to an insertion-ordered association list (Python dict
assignment): replace in place if the key exists, else append. -/
def alset {α : Type} (l : List (String × α)) (key : String) (v : α) :
    List (String × α) :=
  if (alget l key).isSome then
    l.map (fun p => if p.1 = key then (key, v) else p)
  else l ++ [(key, v)]

/-- The mutable session state shared by the loaded schema, the loaded
binary and the two resolution caches (fields structures, binary_data,
resolved_offsets, resolved_sizes of the source classes). -/
structure RState where
  structures : List (String × StructDesc)
  binary_data : List Nat
  resolved_offsets : List (String × Int)
  resolved_sizes : List (String × Nat)
deriving DecidableEq, Repr

/-- The error kinds the resolver raises (RecursionError, KeyError and
ValueError in the source); fuelOut is an artifact of the fuelled
embedding and is unreachable with the fuel resolve supplies. -/
inductive RErr where
  | circular (path : List String)
  | notFound (name : String)
  | invalidLiteral (s : String)
  | malformed (name : String)
  | fuelOut
deriving DecidableEq, Repr

/-- Embeds SleuthParser._read_metadata (sleuthCPS.py lines 110-132):
bounds precheck, then the 4+4 layout only; none models the raised
ValueError.  Note the source's docstring promises an 8+4 layout that
this method does not implement. -/
def Batch.read_metadata (bd : List Nat) (mp : Int) : Option (Nat × Nat) :=
  let n := bd.length
  if mp < 0 ∨ mp ≥ (n : Int) then none
  else if mp + 8 ≤ (n : Int) then
    if fromBytesLE (pySlice bd mp (mp + 4)) < n ∧
        fromBytesLE (pySlice bd mp (mp + 4)) +
          fromBytesLE (pySlice bd (mp - 4) mp) ≤ n then
      some (fromBytesLE (pySlice bd mp (mp + 4)),
            fromBytesLE (pySlice bd (mp - 4) mp))
    else none
  else none

/-- Embeds InteractiveSleuth._read_metadata (sleuthCPS.py lines 384-412):
bounds precheck, the 4+4 layout, then the 8+4 layout when there is room.
none models the raised ValueError. -/
def Interactive.read_metadata (bd : List Nat) (mp : Int) :
    Option (Nat × Nat) :=
  let n := bd.length
  if mp < 0 ∨ mp + 8 > (n : Int) then none
  else
    if fromBytesLE (pySlice bd mp (mp + 4)) < n ∧
        fromBytesLE (pySlice bd mp (mp + 4)) +
          fromBytesLE (pySlice bd (mp - 4) mp) ≤ n then
      some (fromBytesLE (pySlice bd mp (mp + 4)),
            fromBytesLE (pySlice bd (mp - 4) mp))
    else if mp + 12 ≤ (n : Int) then
      if fromBytesLE (pySlice bd mp (mp + 8)) < n ∧
          fromBytesLE (pySlice bd mp (mp + 8)) +
            fromBytesLE (pySlice bd (mp + 8) (mp + 12)) ≤ n then
        some (fromBytesLE (pySlice bd mp (mp + 8)),
              fromBytesLE (pySlice bd (mp + 8) (mp + 12)))
      else none
    else none

/-- The 32-bit little-endian pointer the 4+4 layout decodes at mp. -/
def ptr32 (bd : List Nat) (mp : Int) : Nat :=
  fromBytesLE (pySlice bd mp (mp + 4))

/-- The 32-bit little-endian size the 4+4 layout decodes from the Python
slice bd[mp-4:mp] (empty, hence 0, when 0 ≤ mp < 4). -/
def size32 (bd : List Nat) (mp : Int) : Nat :=
  fromBytesLE (pySlice bd (mp - 4) mp)

/-- Acceptance condition of the 4+4 layout as the code implements it:
mp ≥ 0, eight readable bytes from mp, pointer inside the image, and
pointer plus size at most the image length. -/
def accepts44 (bd : List Nat) (mp : Int) : Prop :=
  0 ≤ mp ∧ mp + 8 ≤ (bd.length : Int) ∧
    ptr32 bd mp < bd.length ∧ ptr32 bd mp + size32 bd mp ≤ bd.length

instance (bd : List Nat) (mp : Int) : Decidable (accepts44 bd mp) := by
  unfold accepts44; infer_instance

/-- The 8+4 stage of the interactive probe, isolated: attempted room
permitting, with the same in-range acceptance rule over the 64-bit
pointer. -/
def stage84 (bd : List Nat) (mp : Int) : Option (Nat × Nat) :=
  if 0 ≤ mp ∧ mp + 12 ≤ (bd.length : Int) then
    if fromBytesLE (pySlice bd mp (mp + 8)) < bd.length ∧
        fromBytesLE (pySlice bd mp (mp + 8)) +
          fromBytesLE (pySlice bd (mp + 8) (mp + 12)) ≤ bd.length then
      some (fromBytesLE (pySlice bd mp (mp + 8)),
            fromBytesLE (pySlice bd (mp + 8) (mp + 12)))
    else none
  else none

/-- Embeds the recursive offset resolver, parameterized by the metadata
probe: SleuthParser._get_absolute_offset (lines 54-108) and
InteractiveSleuth._resolve_offset_recursive (lines 345-382) are this
algorithm with Batch.read_metadata and Interactive.read_metadata
respectively.  The fuel argument only bounds the recursion depth of the
embedding; the visited path makes the fuel resolve supplies sufficient.
Returns the Python function's result (raised error or offset) together
with the post state, since mutations made before a raise persist. -/
def resolveFuel (probe : List Nat → Int → Option (Nat × Nat)) :
    Nat → RState → String → List String → Except RErr Int × RState
  | 0, s, _, _ => (Except.error RErr.fuelOut, s)
  | fuel + 1, s, name, visited =>
    match alget s.resolved_offsets name with
    | some off => (Except.ok off, s)
    | none =>
      if name ∈ visited then
        (Except.error (RErr.circular (visited ++ [name])), s)
      else
        match alget s.structures name with
        | none => (Except.error (RErr.notFound name), s)
        | some st =>
          if st.offset ≠ "" then
            match pyIntBase0 st.offset with
            | some off =>
              (Except.ok off,
               { s with resolved_offsets := alset s.resolved_offsets name off })
            | none => (Except.error (RErr.invalidLiteral st.offset), s)
          else if st.rOffset ≠ "" ∧ st.parent ≠ "" then
            match pyIntBase0 st.rOffset with
            | none => (Except.error (RErr.invalidLiteral st.rOffset), s)
            | some r =>
              match resolveFuel probe fuel s st.parent (visited ++ [name]) with
              | (Except.error e, s1) => (Except.error e, s1)
              | (Except.ok poff, s1) =>
                match probe s1.binary_data (poff + r) with
                | some (dp, sz) =>
                  (Except.ok (dp : Int),
                   { s1 with
                     resolved_offsets :=
                       alset s1.resolved_offsets name (dp : Int),
                     resolved_sizes := alset s1.resolved_sizes name sz })
                | none =>
                  (Except.ok (poff + r),
                   { s1 with
                     resolved_offsets :=
                       alset s1.resolved_offsets name (poff + r) })
          else (Except.error (RErr.malformed name), s)

/-- A top-level resolve call: empty visited path, and fuel one more than
the schema size, which the cycle check makes sufficient. -/
def resolveTop (probe : List Nat → Int → Option (Nat × Nat))
    (s : RState) (name : String) : Except RErr Int × RState :=
  resolveFuel probe (s.structures.length + 1) s name []

/-- SleuthParser._get_absolute_offset with its own 4+4-only probe. -/
def Batch.get_absolute_offset (s : RState) (name : String) :
    Except RErr Int × RState :=
  resolveTop Batch.read_metadata s name

/-- InteractiveSleuth._resolve_offset_recursive with the interactive
probe. -/
def Interactive.resolve_offset_recursive (s : RState) (name : String) :
    Except RErr Int × RState :=
  resolveTop Interactive.read_metadata s name

/-- Replaces the binary image: InteractiveSleuth.load_binary (lines
235-246).  Only binary_data (and the path, not modelled) change; in
particular neither resolution cache is touched. -/
def Interactive.load_binary (s : RState) (data : List Nat) : RState :=
  { s with binary_data := data }

/-- Replaces the schema: InteractiveSleuth.load_csv (lines 248-267)
rebuilds structures from the file's stripped rows (rows are keyed by
their non-empty name).  Neither resolution cache is touched. -/
def Interactive.load_csv (s : RState) (rows : List (String × StructDesc)) :
    RState :=
  { s with structures := rows }

/-- Outcome of one analyze_rel invocation: the early returns, or the
final (absolute, size) pair together with the corrected table written
on a mismatch and the out-of-range warning flag. -/
inductive AROutcome where
  | noStruct
  | resolveFailed (e : RErr)
  | sizeUnreadable (sizePtr : Int)
  | done (absolute : Int) (size : Nat)
      (corrected : Option (List (String × StructDesc))) (outOfRange : Bool)
deriving DecidableEq, Repr

/-- The declared (csv_size, csv_offset) pair of analyze_rel lines
457-464: an empty field is None, and a parse failure of either field
turns both into None (the source's joint except clause). -/
def declaredSizeOffset (st : StructDesc) : Option Int × Option Int :=
  match (if st.size = "" then some none else (pyIntBase0 st.size).map some),
        (if st.offset = "" then some none else
          (pyIntBase0 st.offset).map some) with
  | some a, some b => (a, b)
  | _, _ => (none, none)

/-- The corrected CSV rows written by analyze_rel lines 473-488: every
row passes through unchanged except the analyzed name, whose offset and
size columns are overwritten with hexadecimal literals of the
discovered values. -/
def correctedTable (rows : List (String × StructDesc)) (name : String)
    (absolute : Int) (size : Nat) : List (String × StructDesc) :=
  rows.map (fun p =>
    if p.1 = name then
      (p.1, { p.2 with offset := hexLit absolute, size := hexLit (size : Int) })
    else p)

/-- The reconciliation tail of analyze_rel (lines 456-500): compare the
resolved (absolute, size) against the declared CSV values, on any
mismatch (including absent or unparseable declared values) write the
corrected CSV and reload it as the active schema, then compute the
out-of-range warning flag.  No clamping of the recorded values. -/
def reconcileStep (s : RState) (name : String) (st : StructDesc)
    (absolute : Int) (size : Nat) : AROutcome × RState :=
  let d := declaredSizeOffset st
  let oor : Bool :=
    decide (absolute < 0 ∨ absolute + (size : Int) > (s.binary_data.length : Int))
  if d.1 = none ∨ d.1 ≠ some (size : Int) ∨ d.2 = none ∨ d.2 ≠ some absolute then
    (AROutcome.done absolute size
       (some (correctedTable s.structures name absolute size)) oor,
     { s with structures := correctedTable s.structures name absolute size })
  else (AROutcome.done absolute size none oor, s)

/-- Embeds InteractiveSleuth.analyze_rel (lines 414-510): resolve the
name, determine the effective size (the discovered size if cached, else
the 4 bytes before the resolved offset, in which case the resolved
offset is unconditionally overwritten by the 4-byte pointer read at it
when those bytes exist), then reconcile against the declared values. -/
def Interactive.analyze_rel (s : RState) (name : String) :
    AROutcome × RState :=
  match alget s.structures name with
  | none => (AROutcome.noStruct, s)
  | some st =>
    match Interactive.resolve_offset_recursive s name with
    | (Except.error e, s1) => (AROutcome.resolveFailed e, s1)
    | (Except.ok absolute0, s1) =>
      match alget s1.resolved_sizes name with
      | some sz => reconcileStep s1 name st absolute0 sz
      | none =>
        if absolute0 - 4 < 0 ∨
            absolute0 - 4 + 4 > (s1.binary_data.length : Int) then
          (AROutcome.sizeUnreadable (absolute0 - 4), s1)
        else
          if absolute0 + 4 ≤ (s1.binary_data.length : Int) then
            reconcileStep
              { s1 with
                resolved_offsets := alset s1.resolved_offsets name
                  ((fromBytesLE
                      (pySlice s1.binary_data absolute0 (absolute0 + 4)) : Int)),
                resolved_sizes := alset s1.resolved_sizes name
                  (fromBytesLE
                    (pySlice s1.binary_data (absolute0 - 4) absolute0)) }
              name st
              ((fromBytesLE
                  (pySlice s1.binary_data absolute0 (absolute0 + 4)) : Int))
              (fromBytesLE (pySlice s1.binary_data (absolute0 - 4) absolute0))
          else
            reconcileStep s1 name st absolute0
              (fromBytesLE (pySlice s1.binary_data (absolute0 - 4) absolute0))

/-- The loop body of SleuthParser.resolve_all_offsets (lines 134-138):
resolve each remaining name, with no per-name exception handling, so
the first raised error aborts the remainder of the batch. -/
def Batch.resolveAllGo : List String → RState → Option RErr × RState
  | [], s => (none, s)
  | nm :: rest, s =>
    if (alget s.resolved_offsets nm).isSome then Batch.resolveAllGo rest s
    else
      match Batch.get_absolute_offset s nm with
      | (Except.ok _, s1) => Batch.resolveAllGo rest s1
      | (Except.error e, s1) => (some e, s1)

/-- Embeds SleuthParser.resolve_all_offsets. -/
def Batch.resolve_all_offsets (s : RState) : Option RErr × RState :=
  Batch.resolveAllGo (s.structures.map Prod.fst) s

/-- The per-name body of the interactive list command (lines 600-605):
each name is resolved inside a try/except, a failure printing N/A and
the loop continuing; the returned list records each name's displayed
offset in iteration order. -/
def Interactive.listGo : List String → RState → RState × List (String × Option Int)
  | [], s => (s, [])
  | nm :: rest, s =>
    match Interactive.resolve_offset_recursive s nm with
    | (Except.ok off, s1) =>
      let t := Interactive.listGo rest s1
      (t.1, (nm, some off) :: t.2)
    | (Except.error _, s1) =>
      let t := Interactive.listGo rest s1
      (t.1, (nm, none) :: t.2)

/-- Embeds the interactive list command (lines 591-606): it first resets
resolved_offsets to an empty dict, then resolves every structure name in
schema order, isolating per-name failures. -/
def Interactive.listCmd (s : RState) : RState × List (String × Option Int) :=
  Interactive.listGo (s.structures.map Prod.fst)
    { s with resolved_offsets := [] }

/-- A two-row schema over an empty image: Root explicit at 0, Child
relative at rOffset 8; the probe fails on the empty image, exercising
the flat-offset fallback. -/
def exProbeFail : RState :=
  ⟨[("Root", ⟨"0x0", "", "", ""⟩), ("Child", ⟨"", "", "0x8", "Root"⟩)],
   [], [], []⟩

/-- A two-row schema in which A's parent is B and B's parent is A. -/
def exCycle : RState :=
  ⟨[("A", ⟨"", "", "0x0", "B"⟩), ("B", ⟨"", "", "0x0", "A"⟩)], [], [], []⟩

/-- A one-row schema with explicit offset 0x10 and no loaded image. -/
def exExplicit : RState :=
  ⟨[("X", ⟨"0x10", "", "", ""⟩)], [], [], []⟩

/-- A 24-byte image carrying size 2 at offset 12 and pointer 5 at
offset 16, the bytes analyze_rel reads around offset 0x10. -/
def exBin24 : List Nat :=
  [0, 0, 0, 0, 0, 0, 0, 0, 0, 0, 0, 0, 2, 0, 0, 0, 5, 0, 0, 0, 0, 0, 0, 0]

/-- The explicit 0x10 schema over exBin24. -/
def exOverwrite : RState :=
  ⟨[("X", ⟨"0x10", "", "", ""⟩)], exBin24, [], []⟩

/-- exOverwrite after X has been resolved once (X cached at 16). -/
def exOverwriteResolved : RState :=
  ⟨[("X", ⟨"0x10", "", "", ""⟩)], exBin24, [("X", 16)], []⟩

/-- A schema whose first row has an unparseable offset literal and whose
second row is a valid explicit offset. -/
def exBatch : RState :=
  ⟨[("A", ⟨"zz", "", "", ""⟩), ("B", ⟨"0x10", "", "", ""⟩)], [], [], []⟩

/-- A relative row whose parent name is missing from the schema, with
both caches holding unrelated prior entries. -/
def exMissingParent : RState :=
  ⟨[("A", ⟨"", "", "0x4", "Zed"⟩)], [], [("P", 7)], [("Q", 3)]⟩

/-- A raised error inside resolution leaves the session state exactly as
it was: every error return of the resolver passes the entry state
through unchanged, and a failing parent chain performed no cache write
before raising. -/
theorem resolveFuel_error_state (probe : List Nat → Int → Option (Nat × Nat)) :
    ∀ (fuel : Nat) (s : RState) (name : String) (visited : List String)
      (e : RErr) (s2 : RState),
      resolveFuel probe fuel s name visited = (Except.error e, s2) → s2 = s := by
  intro fuel
  induction fuel with
  | zero =>
    intro s name visited e s2 h
    simp only [resolveFuel] at h
    exact (Prod.mk.injEq _ _ _ _ ▸ h).2.symm
  | succ fuel ih =>
    intro s name visited e s2 h
    simp only [resolveFuel] at h
    split at h
    · exact absurd h (by simp)
    · split at h
      · exact ((Prod.mk.injEq _ _ _ _ ▸ h).2).symm
      · split at h
        · exact ((Prod.mk.injEq _ _ _ _ ▸ h).2).symm
        · split at h
          · split at h
            · exact absurd h (by simp)
            · exact ((Prod.mk.injEq _ _ _ _ ▸ h).2).symm
          · split at h
            · split at h
              · exact ((Prod.mk.injEq _ _ _ _ ▸ h).2).symm
              · split at h
                · rename_i heq
                  have := ih _ _ _ _ _ heq
                  subst this
                  exact ((Prod.mk.injEq _ _ _ _ ▸ h).2).symm
                · split at h
                  · exact absurd h (by simp)
                  · exact absurd h (by simp)
            · exact ((Prod.mk.injEq _ _ _ _ ▸ h).2).symm
/-- Claim C1 (amended): both probes accept the 4+4 layout if and only if
meta_ptr ≥ 0, meta_ptr + 8 ≤ image length, the decoded 32-bit pointer
lies in [0, length), and pointer plus the size decoded from the Python
slice image[meta_ptr-4 : meta_ptr] is at most the length; on acceptance
they return exactly that (pointer, size) pair, and on rejection the
interactive probe proceeds to the 8+4 stage while the batch probe
fails. -/
theorem probe_accepts_44_iff (bd : List Nat) (mp : Int) :
    (Interactive.read_metadata bd mp =
      if accepts44 bd mp then some (ptr32 bd mp, size32 bd mp)
      else stage84 bd mp) ∧
    (Batch.read_metadata bd mp =
      if accepts44 bd mp then some (ptr32 bd mp, size32 bd mp)
      else none) := by
  simp only [Interactive.read_metadata, Batch.read_metadata, accepts44,
    stage84, ptr32, size32]
  constructor <;> · split_ifs <;> first | rfl | omega

/-- Claim C1, counterexample to the stated acceptance rule: at
meta_ptr = 0 on an 8-byte image the probes accept the 4+4 layout and
return (1, 0) although meta_ptr - 4 < 0, and at meta_ptr = 4 on a
10-byte image they reject although all four stated conditions
(meta_ptr-4 ≥ 0, meta_ptr+4 ≤ 10, pointer 0 in range, 0 + 0 ≤ 10)
hold. -/
theorem probe_44_rule_counterexample :
    (Interactive.read_metadata [1, 0, 0, 0, 0, 0, 0, 0] 0 = some (1, 0) ∧
     Batch.read_metadata [1, 0, 0, 0, 0, 0, 0, 0] 0 = some (1, 0) ∧
     (0 : Int) - 4 < 0) ∧
    (Interactive.read_metadata [0, 0, 0, 0, 0, 0, 0, 0, 0, 0] 4 = none ∧
     Batch.read_metadata [0, 0, 0, 0, 0, 0, 0, 0, 0, 0] 4 = none ∧
     (4 : Int) - 4 ≥ 0 ∧ (4 : Int) + 4 ≤ 10 ∧
     ptr32 [0, 0, 0, 0, 0, 0, 0, 0, 0, 0] 4 = 0 ∧
     size32 [0, 0, 0, 0, 0, 0, 0, 0, 0, 0] 4 = 0) := by
  decide

/-- Claim C2: on a 16-byte image whose bytes at meta_ptr = 4 reject the
4+4 layout (pointer 2, size 100, 2 + 100 > 16) but carry valid 8+4
metadata (64-bit pointer 2, size 3, 2 + 3 ≤ 16), the batch probe
SleuthParser._read_metadata fails without attempting the 8+4 layout its
docstring promises, while the interactive probe attempts it and
returns (2, 3). -/
theorem batch_probe_skips_84_layout :
    Batch.read_metadata
        [100, 0, 0, 0, 2, 0, 0, 0, 0, 0, 0, 0, 3, 0, 0, 0] 4 = none ∧
    Interactive.read_metadata
        [100, 0, 0, 0, 2, 0, 0, 0, 0, 0, 0, 0, 3, 0, 0, 0] 4 =
      some (2, 3) := by
  decide

/-- Claim C10: when resolution of a name fails for any reason, no cache
entry is written for the failing name, the resolved-offset and
discovered-size caches gain no entry at all, and every previously
cached entry (in particular every ancestor resolved in an earlier call)
remains cached with its value — indeed the whole state is unchanged. -/
theorem resolve_failure_writes_nothing
    (probe : List Nat → Int → Option (Nat × Nat)) (fuel : Nat) (s : RState)
    (name : String) (visited : List String) (e : RErr) (s2 : RState)
    (h : resolveFuel probe fuel s name visited = (Except.error e, s2)) :
    s2 = s ∧
    (alget s.resolved_offsets name = none →
      alget s2.resolved_offsets name = none) ∧
    (alget s.resolved_sizes name = none →
      alget s2.resolved_sizes name = none) ∧
    (∀ k v, alget s.resolved_offsets k = some v →
      alget s2.resolved_offsets k = some v) ∧
    (∀ k v, alget s.resolved_sizes k = some v →
      alget s2.resolved_sizes k = some v) := by
  have hs : s2 = s := resolveFuel_error_state probe fuel s name visited e s2 h
  subst hs
  exact ⟨rfl, fun h => h, fun h => h, fun _ _ h => h, fun _ _ h => h⟩

/-- Witness for C10 at a concrete failing input: resolving A (whose
parent Zed is absent) fails, A is not cached, and the prior cache
entries P and Q survive untouched. -/
theorem resolve_failure_writes_nothing_witness :
    ((resolveTop Interactive.read_metadata exMissingParent "A").2
        = exMissingParent) ∧
    alget ((resolveTop Interactive.read_metadata exMissingParent "A").2).resolved_offsets
        "A" = none ∧
    alget ((resolveTop Interactive.read_metadata exMissingParent "A").2).resolved_offsets
        "P" = some 7 ∧
    alget ((resolveTop Interactive.read_metadata exMissingParent "A").2).resolved_sizes
        "Q" = some 3 := by
  have h : resolveFuel Interactive.read_metadata 2 exMissingParent "A" []
      = (Except.error (RErr.notFound "Zed"), exMissingParent) := by rfl
  have hc := resolve_failure_writes_nothing Interactive.read_metadata 2
    exMissingParent "A" [] (RErr.notFound "Zed") exMissingParent h
  have htop : resolveTop Interactive.read_metadata exMissingParent "A"
      = (Except.error (RErr.notFound "Zed"), exMissingParent) := h
  rw [htop]
  exact ⟨hc.1, hc.2.1 (by decide), hc.2.2.2.1 "P" 7 (by decide),
    hc.2.2.2.2 "Q" 3 (by decide)⟩

/-- Claim C3: for a relative descriptor whose parent resolves, a probe
failure at meta_ptr = parent_offset + rOffset is recovered locally: the
resolver returns meta_ptr itself as the absolute offset, caches it,
records no discovered size, and surfaces no error. -/
theorem probe_failure_falls_back
    (probe : List Nat → Int → Option (Nat × Nat)) (s : RState)
    (name : String) (st : StructDesc) (r poff : Int) (s1 : RState)
    (hc : alget s.resolved_offsets name = none)
    (hs : alget s.structures name = some st)
    (ho : st.offset = "")
    (hr : st.rOffset ≠ "") (hp : st.parent ≠ "")
    (hpr : pyIntBase0 st.rOffset = some r)
    (hpar : resolveFuel probe s.structures.length s st.parent [name]
        = (Except.ok poff, s1))
    (hprobe : probe s1.binary_data (poff + r) = none) :
    resolveTop probe s name =
      (Except.ok (poff + r),
       { s1 with
         resolved_offsets := alset s1.resolved_offsets name (poff + r) }) := by
  rw [resolveTop]
  simp [resolveFuel, hc, hs, ho, hr, hp, hpr, hpar, hprobe]

/-- Witness for C3 at a concrete input: on an empty image the probe
fails at meta_ptr 0 + 8, and resolving Child yields offset 8 with
Root's resolution cached and no discovered size. -/
theorem probe_failure_falls_back_witness :
    resolveTop Interactive.read_metadata exProbeFail "Child" =
      (Except.ok 8,
       ⟨[("Root", ⟨"0x0", "", "", ""⟩), ("Child", ⟨"", "", "0x8", "Root"⟩)],
        [], [("Root", 0), ("Child", 8)], []⟩) := by
  have := probe_failure_falls_back Interactive.read_metadata exProbeFail
    "Child" ⟨"", "", "0x8", "Root"⟩ 8 0
    ⟨[("Root", ⟨"0x0", "", "", ""⟩), ("Child", ⟨"", "", "0x8", "Root"⟩)],
     [], [("Root", 0)], []⟩
    (by decide) (by decide) (by decide) (by decide) (by decide) (by decide)
    (by rfl) (by decide)
  simpa using this

theorem alget_length_pos {α : Type} (l : List (String × α)) (k : String) (v : α)
    (h : alget l k = some v) : 1 ≤ l.length := by
  cases l with
  | nil => simp [alget] at h
  | cons p rest => simp

theorem alget_two_le {α : Type} (l : List (String × α)) (a b : String) (x y : α)
    (hab : a ≠ b) (ha : alget l a = some x) (hb : alget l b = some y) :
    2 ≤ l.length := by
  induction l with
  | nil => simp [alget] at ha
  | cons p rest ih =>
    obtain ⟨k, w⟩ := p
    by_cases hka : k = a
    · have hkb : ¬ k = b := fun h => hab (hka ▸ h ▸ rfl)
      have hb' : alget rest b = some y := by simpa [alget, hkb] using hb
      have := alget_length_pos rest b y hb'
      simp only [List.length_cons]
      omega
    · by_cases hkb : k = b
      · have ha' : alget rest a = some x := by simpa [alget, hka] using ha
        have := alget_length_pos rest a x ha'
        simp only [List.length_cons]
        omega
      · have ha' : alget rest a = some x := by simpa [alget, hka] using ha
        have hb' : alget rest b = some y := by simpa [alget, hkb] using hb
        have := ih ha' hb'
        simp only [List.length_cons]
        omega

theorem resolve_cycle_from (probe : List Nat → Int → Option (Nat × Nat))
    (fuel : Nat) (s : RState) (A B : String) (stA stB : StructDesc)
    (rA rB : Int)
    (hAB : A ≠ B) (hAne : A ≠ "") (hBne : B ≠ "")
    (hcA : alget s.resolved_offsets A = none)
    (hcB : alget s.resolved_offsets B = none)
    (hsA : alget s.structures A = some stA)
    (hsB : alget s.structures B = some stB)
    (hoA : stA.offset = "") (hoB : stB.offset = "")
    (hrA : stA.rOffset ≠ "") (hrB : stB.rOffset ≠ "")
    (hpA : stA.parent = B) (hpB : stB.parent = A)
    (hprA : pyIntBase0 stA.rOffset = some rA)
    (hprB : pyIntBase0 stB.rOffset = some rB) :
    resolveFuel probe (fuel + 3) s A [] =
      (Except.error (RErr.circular [A, B, A]), s) := by
  simp [resolveFuel, hcA, hcB, hsA, hsB, hoA, hoB, hrA, hrB, hpA, hpB,
    hprA, hprB, hAB, Ne.symm hAB, hAne, hBne]

/-- Claim C4: in a schema where A's parent is B and B's parent is A
(both relative with parseable rOffsets, neither cached), resolving
either name terminates with a CircularReference error carrying the full
resolution path, leaves the state unchanged, and returns no value. -/
theorem resolve_mutual_parents_circular
    (probe : List Nat → Int → Option (Nat × Nat)) (s : RState)
    (A B : String) (stA stB : StructDesc) (rA rB : Int)
    (hAB : A ≠ B) (hAne : A ≠ "") (hBne : B ≠ "")
    (hcA : alget s.resolved_offsets A = none)
    (hcB : alget s.resolved_offsets B = none)
    (hsA : alget s.structures A = some stA)
    (hsB : alget s.structures B = some stB)
    (hoA : stA.offset = "") (hoB : stB.offset = "")
    (hrA : stA.rOffset ≠ "") (hrB : stB.rOffset ≠ "")
    (hpA : stA.parent = B) (hpB : stB.parent = A)
    (hprA : pyIntBase0 stA.rOffset = some rA)
    (hprB : pyIntBase0 stB.rOffset = some rB) :
    resolveTop probe s A = (Except.error (RErr.circular [A, B, A]), s) ∧
    resolveTop probe s B = (Except.error (RErr.circular [B, A, B]), s) := by
  have hlen : 2 ≤ s.structures.length := alget_two_le _ A B stA stB hAB hsA hsB
  have h3 : s.structures.length + 1 = (s.structures.length - 2) + 3 := by omega
  constructor
  · rw [resolveTop, h3]
    exact resolve_cycle_from probe _ s A B stA stB rA rB hAB hAne hBne hcA hcB
      hsA hsB hoA hoB hrA hrB hpA hpB hprA hprB
  · rw [resolveTop, h3]
    exact resolve_cycle_from probe _ s B A stB stA rB rA (Ne.symm hAB) hBne hAne
      hcB hcA hsB hsA hoB hoA hrB hrA hpB hpA hprB hprA

/-- Witness for C4 on the concrete two-row cyclic schema. -/
theorem resolve_mutual_parents_circular_witness :
    resolveTop Interactive.read_metadata exCycle "A" =
      (Except.error (RErr.circular ["A", "B", "A"]), exCycle) ∧
    resolveTop Interactive.read_metadata exCycle "B" =
      (Except.error (RErr.circular ["B", "A", "B"]), exCycle) :=
  resolve_mutual_parents_circular Interactive.read_metadata exCycle "A" "B"
    ⟨"", "", "0x0", "B"⟩ ⟨"", "", "0x0", "A"⟩ 0 0
    (by decide) (by decide) (by decide) (by decide) (by decide) (by decide)
    (by decide) (by decide) (by decide) (by decide) (by decide) (by decide)
    (by decide) (by decide) (by decide)

/-- Claim C5 (amended): resolving a structure whose descriptor carries a
valid explicit offset literal L returns exactly L and caches it,
whenever the resolution cache holds no entry for that name; the literal
is never affected by the probe or the binary.  (Because reloading does
not clear the cache and analyze_rel may overwrite it, a stale cache
entry can later shadow L; see the counterexample.) -/
theorem explicit_offset_resolution
    (probe : List Nat → Int → Option (Nat × Nat)) (s : RState)
    (name : String) (st : StructDesc) (L : Int)
    (hc : alget s.resolved_offsets name = none)
    (hs : alget s.structures name = some st)
    (ho : st.offset ≠ "")
    (hL : pyIntBase0 st.offset = some L) :
    resolveTop probe s name =
      (Except.ok L,
       { s with resolved_offsets := alset s.resolved_offsets name L }) := by
  rw [resolveTop]
  simp [resolveFuel, hc, hs, ho, hL]

/-- Witness for C5 at the concrete one-row schema with offset 0x10. -/
theorem explicit_offset_resolution_witness :
    resolveTop Interactive.read_metadata exExplicit "X" =
      (Except.ok 16,
       ⟨[("X", ⟨"0x10", "", "", ""⟩)], [], [("X", 16)], []⟩) := by
  have := explicit_offset_resolution Interactive.read_metadata exExplicit
    "X" ⟨"0x10", "", "", ""⟩ 16 (by decide) (by decide) (by decide) (by decide)
  simpa using this

/-- Claim C5, counterexample: after resolving X (explicit 0x10) the
schema is reloaded with X at explicit 0x20; the caches survive the
reload, so the next resolve returns the stale 16 although X's
descriptor now holds the valid literal 0x20 = 32. -/
theorem explicit_offset_counterexample :
    pyIntBase0 "0x20" = some 32 ∧
    (Interactive.resolve_offset_recursive
        (Interactive.load_csv
          (Interactive.resolve_offset_recursive exExplicit "X").2
          [("X", ⟨"0x20", "", "", ""⟩)])
        "X").1 = Except.ok 16 ∧
    (16 : Int) ≠ 32 := by
  refine ⟨by decide, ?_, by decide⟩
  rfl

/-- Claim C6 (amended): a cache hit is returned as-is — a second resolve
of a cached name yields the identical cached value and leaves the whole
state unchanged, with no recomputation and no probe invocation.  (The
cache entry is not write-once across the session: analyze_rel can
overwrite it; see the counterexample.) -/
theorem cached_resolution_idempotent
    (probe : List Nat → Int → Option (Nat × Nat)) (s : RState)
    (name : String) (v : Int)
    (h : alget s.resolved_offsets name = some v) :
    resolveTop probe s name = (Except.ok v, s) := by
  rw [resolveTop]
  simp [resolveFuel, h]

/-- Witness for C6 on the resolved one-row schema (X cached at 16). -/
theorem cached_resolution_idempotent_witness :
    resolveTop Interactive.read_metadata exOverwriteResolved "X" =
      (Except.ok 16, exOverwriteResolved) :=
  cached_resolution_idempotent Interactive.read_metadata
    exOverwriteResolved "X" 16 (by decide)

/-- Claim C6, counterexample: X is cached at its explicit offset 16, yet
analyze_rel replaces the cached entry with the pointer 5 freshly read
from the binary at offset 16, so the cache entry is not write-once. -/
theorem cache_overwrite_counterexample :
    alget exOverwriteResolved.resolved_offsets "X" = some 16 ∧
    alget (Interactive.analyze_rel exOverwriteResolved "X").2.resolved_offsets
        "X" = some 5 ∧
    (5 : Int) ≠ 16 := by
  refine ⟨by decide, ?_, by decide⟩
  rfl

/-- Claim C8 (amended): load_csv replaces the schema and load_binary
replaces the image, but neither clears the resolved-offset or
discovered-size cache; both caches (and the other component) pass
through unchanged, so later resolutions can reuse entries computed
against the previous schema or binary. -/
theorem reload_preserves_caches (s : RState)
    (rows : List (String × StructDesc)) (bd : List Nat) :
    (Interactive.load_csv s rows).structures = rows ∧
    (Interactive.load_csv s rows).resolved_offsets = s.resolved_offsets ∧
    (Interactive.load_csv s rows).resolved_sizes = s.resolved_sizes ∧
    (Interactive.load_csv s rows).binary_data = s.binary_data ∧
    (Interactive.load_binary s bd).binary_data = bd ∧
    (Interactive.load_binary s bd).resolved_offsets = s.resolved_offsets ∧
    (Interactive.load_binary s bd).resolved_sizes = s.resolved_sizes ∧
    (Interactive.load_binary s bd).structures = s.structures := by
  simp [Interactive.load_csv, Interactive.load_binary]

/-- Claim C8, counterexample to cache invalidation on reload: with X
cached at 16, reloading a schema that declares X at 0x30 (and reloading
a fresh binary) leaves the cache entry in place, and the next resolve
returns the stale 16 instead of 48. -/
theorem reload_invalidation_counterexample :
    (Interactive.load_csv
        (Interactive.resolve_offset_recursive exExplicit "X").2
        [("X", ⟨"0x30", "", "", ""⟩)]).resolved_offsets = [("X", 16)] ∧
    (Interactive.load_binary
        (Interactive.resolve_offset_recursive exExplicit "X").2
        [0, 0]).resolved_offsets = [("X", 16)] ∧
    pyIntBase0 "0x30" = some 48 ∧
    (Interactive.resolve_offset_recursive
        (Interactive.load_csv
          (Interactive.resolve_offset_recursive exExplicit "X").2
          [("X", ⟨"0x30", "", "", ""⟩)])
        "X").1 = Except.ok 16 := by
  refine ⟨by decide, by decide, by decide, ?_⟩
  rfl

/-- The interactive list loop produces exactly one output entry per
schema name, in iteration order, no matter which resolutions fail. -/
theorem listGo_names : ∀ (names : List String) (s : RState),
    (Interactive.listGo names s).2.map Prod.fst = names := by
  intro names
  induction names with
  | nil => intro s; rfl
  | cons nm rest ih =>
    intro s
    simp only [Interactive.listGo]
    split <;> simp [ih]

/-- Claim C7 (amended): the interactive list command resolves every
schema name in iteration order and isolates per-name failures (an entry
per name regardless of failures; on the concrete schema A's invalid
literal still leaves B resolved to 16), while
SleuthParser.resolve_all_offsets propagates the first failure: on the
same schema it stops at A and never resolves B, although B on its own
resolves fine. -/
theorem list_isolates_batch_aborts :
    (∀ s : RState,
      (Interactive.listCmd s).2.map Prod.fst = s.structures.map Prod.fst) ∧
    Interactive.listCmd exBatch =
      (⟨exBatch.structures, [], [("B", 16)], []⟩,
       [("A", none), ("B", some 16)]) ∧
    Batch.resolve_all_offsets exBatch =
      (some (RErr.invalidLiteral "zz"), exBatch) ∧
    (Batch.get_absolute_offset exBatch "B").1 = Except.ok 16 :=
  ⟨fun s => listGo_names _ _, by rfl, by rfl, by rfl⟩

/-- Claim C7, counterexample to failure isolation in
SleuthParser.resolve_all_offsets: the batch aborts at A's invalid
literal and B — which would resolve to 16 — is left unresolved and
unobservable in the cache. -/
theorem resolve_all_counterexample :
    (Batch.resolve_all_offsets exBatch).1 = some (RErr.invalidLiteral "zz") ∧
    alget (Batch.resolve_all_offsets exBatch).2.resolved_offsets "B" = none ∧
    (Batch.get_absolute_offset exBatch "B").1 = Except.ok 16 :=
  ⟨by rfl, by decide, by rfl⟩

theorem resolveFuel_keeps_schema (probe : List Nat → Int → Option (Nat × Nat)) :
    ∀ (fuel : Nat) (s : RState) (name : String) (visited : List String),
      (resolveFuel probe fuel s name visited).2.structures = s.structures ∧
      (resolveFuel probe fuel s name visited).2.binary_data = s.binary_data := by
  intro fuel
  induction fuel with
  | zero => intro s name visited; exact ⟨rfl, rfl⟩
  | succ fuel ih =>
    intro s name visited
    simp only [resolveFuel]
    split
    · exact ⟨rfl, rfl⟩
    · split
      · exact ⟨rfl, rfl⟩
      · split
        · exact ⟨rfl, rfl⟩
        · rename_i st hst
          split
          · split
            · exact ⟨rfl, rfl⟩
            · exact ⟨rfl, rfl⟩
          · split
            · split
              · exact ⟨rfl, rfl⟩
              · rename_i r hr
                split
                · rename_i e s1 heq
                  have h2 := ih s st.parent (visited ++ [name])
                  rw [heq] at h2
                  exact h2
                · rename_i poff s1 heq
                  have h2 := ih s st.parent (visited ++ [name])
                  rw [heq] at h2
                  split
                  · exact h2
                  · exact h2
            · exact ⟨rfl, rfl⟩

theorem alget_cons {α : Type} (j : String) (v : α) (rest : List (String × α))
    (key : String) :
    alget ((j, v) :: rest) key = if j = key then some v else alget rest key :=
  rfl

theorem correctedTable_cons (k : String) (w : StructDesc)
    (rest : List (String × StructDesc)) (name : String) (a : Int) (z : Nat) :
    correctedTable ((k, w) :: rest) name a z =
      (if k = name
       then (k, { w with offset := hexLit a, size := hexLit (z : Int) })
       else (k, w)) :: correctedTable rest name a z := by
  simp only [correctedTable, List.map_cons]

theorem alget_correctedTable_self (rows : List (String × StructDesc))
    (name : String) (st : StructDesc) (a : Int) (z : Nat)
    (h : alget rows name = some st) :
    alget (correctedTable rows name a z) name =
      some { st with offset := hexLit a, size := hexLit (z : Int) } := by
  induction rows with
  | nil => simp [alget] at h
  | cons p rest ih =>
    obtain ⟨k, w⟩ := p
    rw [correctedTable_cons]
    by_cases hk : k = name
    · rw [if_pos hk, alget_cons, if_pos hk]
      rw [alget_cons, if_pos hk] at h
      have hw : w = st := Option.some.inj h
      rw [hw]
    · rw [if_neg hk, alget_cons, if_neg hk]
      rw [alget_cons, if_neg hk] at h
      exact ih h

theorem alget_correctedTable_ne (rows : List (String × StructDesc))
    (name k : String) (a : Int) (z : Nat) (hk : k ≠ name) :
    alget (correctedTable rows name a z) k = alget rows k := by
  induction rows with
  | nil => rfl
  | cons p rest ih =>
    obtain ⟨j, w⟩ := p
    rw [correctedTable_cons]
    by_cases hj : j = name
    · have hjk : ¬ j = k := fun h => hk (h ▸ hj)
      rw [if_pos hj, alget_cons, if_neg hjk, alget_cons, if_neg hjk]
      exact ih
    · rw [if_neg hj, alget_cons, alget_cons]
      by_cases hjk : j = k
      · rw [if_pos hjk, if_pos hjk]
      · rw [if_neg hjk, if_neg hjk]
        exact ih

theorem correctedTable_names (rows : List (String × StructDesc))
    (name : String) (a : Int) (z : Nat) :
    (correctedTable rows name a z).map Prod.fst = rows.map Prod.fst := by
  induction rows with
  | nil => rfl
  | cons p rest ih =>
    obtain ⟨j, w⟩ := p
    rw [correctedTable_cons]
    by_cases hj : j = name
    · rw [if_pos hj]
      simp [ih]
    · rw [if_neg hj]
      simp [ih]

theorem reconcileStep_spec (s : RState) (name : String) (st : StructDesc)
    (a : Int) (z : Nat) :
    (reconcileStep s name st a z).1 =
      AROutcome.done a z
        (if (declaredSizeOffset st).1 = some (z : Int) ∧
            (declaredSizeOffset st).2 = some a
         then none else some (correctedTable s.structures name a z))
        (decide (a < 0 ∨ a + (z : Int) > (s.binary_data.length : Int))) ∧
    (reconcileStep s name st a z).2.structures =
      (if (declaredSizeOffset st).1 = some (z : Int) ∧
          (declaredSizeOffset st).2 = some a
       then s.structures else correctedTable s.structures name a z) ∧
    (reconcileStep s name st a z).2.binary_data = s.binary_data ∧
    (reconcileStep s name st a z).2.resolved_offsets = s.resolved_offsets ∧
    (reconcileStep s name st a z).2.resolved_sizes = s.resolved_sizes := by
  by_cases hm : (declaredSizeOffset st).1 = some (z : Int) ∧
      (declaredSizeOffset st).2 = some a
  · have hcond : ¬ ((declaredSizeOffset st).1 = none ∨
        (declaredSizeOffset st).1 ≠ some (z : Int) ∨
        (declaredSizeOffset st).2 = none ∨
        (declaredSizeOffset st).2 ≠ some a) := by
      simp [hm.1, hm.2]
    simp [reconcileStep, hcond, hm]
  · have hcond : (declaredSizeOffset st).1 = none ∨
        (declaredSizeOffset st).1 ≠ some (z : Int) ∨
        (declaredSizeOffset st).2 = none ∨
        (declaredSizeOffset st).2 ≠ some a := by
      tauto
    simp [reconcileStep, hcond, hm]

theorem reconcile_done_props (s sIn : RState) (name : String)
    (st : StructDesc) (a : Int) (z : Nat) (abs : Int) (size : Nat)
    (corr : Option (List (String × StructDesc))) (oor : Bool) (s2 : RState)
    (hstruct : sIn.structures = s.structures)
    (hbin : sIn.binary_data = s.binary_data)
    (hs : alget s.structures name = some st)
    (h : reconcileStep sIn name st a z = (AROutcome.done abs size corr oor, s2)) :
    (corr = none ↔
      (declaredSizeOffset st).1 = some (size : Int) ∧
      (declaredSizeOffset st).2 = some abs) ∧
    (corr = none → s2.structures = s.structures) ∧
    (∀ tbl, corr = some tbl →
      s2.structures = tbl ∧
      alget tbl name =
        some { st with offset := hexLit abs, size := hexLit (size : Int) } ∧
      (∀ k, k ≠ name → alget tbl k = alget s.structures k) ∧
      tbl.map Prod.fst = s.structures.map Prod.fst) ∧
    oor = decide (abs < 0 ∨ abs + (size : Int) > (s.binary_data.length : Int)) := by
  obtain ⟨h1, h2, h3, h4, h5⟩ := reconcileStep_spec sIn name st a z
  rw [h] at h1 h2
  dsimp only at h1 h2
  simp only [AROutcome.done.injEq] at h1
  obtain ⟨ha, hz, hcorr, hoor⟩ := h1
  subst ha hz
  by_cases hm : (declaredSizeOffset st).1 = some (size : Int) ∧
      (declaredSizeOffset st).2 = some abs
  · rw [if_pos hm] at hcorr h2
    refine ⟨by simp [hcorr, hm], fun _ => hstruct ▸ h2, ?_, ?_⟩
    · intro tbl htbl
      rw [hcorr] at htbl
      exact absurd htbl (by simp)
    · rw [hoor, hbin]
  · rw [if_neg hm] at hcorr h2
    refine ⟨by simp [hcorr, hm], by simp [hcorr], ?_, by rw [hoor, hbin]⟩
    intro tbl htbl
    rw [hcorr] at htbl
    have htbl2 : tbl = correctedTable sIn.structures name abs size :=
      (Option.some.inj htbl).symm
    subst htbl2
    rw [hstruct]
    exact ⟨h2 ▸ hstruct ▸ rfl,
      alget_correctedTable_self s.structures name st abs size hs,
      fun k hk => alget_correctedTable_ne s.structures name k abs size hk,
      correctedTable_names s.structures name abs size⟩

/-- Claim C9: after analyze_rel resolves a name to (absolute, effective
size), a correction is emitted iff the declared (size, offset) pair
differs from the discovered one or is absent/unparseable; the corrected
table overwrites only that name's offset and size with hexadecimal
literals of the discovered values, keeps its other fields and all other
rows unchanged, becomes the active schema, and the out-of-range flag is
set exactly when the discovered region leaves the image, with the
recorded values never clamped. -/
theorem reconciler_correction_iff (s : RState) (name : String)
    (st : StructDesc) (abs : Int) (size : Nat)
    (corr : Option (List (String × StructDesc))) (oor : Bool) (s2 : RState)
    (hs : alget s.structures name = some st)
    (h : Interactive.analyze_rel s name =
      (AROutcome.done abs size corr oor, s2)) :
    (corr = none ↔
      (declaredSizeOffset st).1 = some (size : Int) ∧
      (declaredSizeOffset st).2 = some abs) ∧
    (corr = none → s2.structures = s.structures) ∧
    (∀ tbl, corr = some tbl →
      s2.structures = tbl ∧
      alget tbl name =
        some { st with offset := hexLit abs, size := hexLit (size : Int) } ∧
      (∀ k, k ≠ name → alget tbl k = alget s.structures k) ∧
      tbl.map Prod.fst = s.structures.map Prod.fst) ∧
    oor = decide (abs < 0 ∨ abs + (size : Int) > (s.binary_data.length : Int)) := by
  unfold Interactive.analyze_rel at h
  rw [hs] at h
  rcases hres : Interactive.resolve_offset_recursive s name with ⟨r, s1⟩
  rw [hres] at h
  unfold Interactive.resolve_offset_recursive resolveTop at hres
  have hpres := resolveFuel_keeps_schema Interactive.read_metadata
    (s.structures.length + 1) s name []
  rw [hres] at hpres
  dsimp only at hpres
  obtain ⟨hstruct, hbin⟩ := hpres
  cases r with
  | error e => simp at h
  | ok absolute0 =>
    dsimp only at h
    split at h
    · exact reconcile_done_props s s1 name st _ _ abs size corr oor s2
        hstruct hbin hs h
    · split at h
      · simp at h
      · split at h
        · refine reconcile_done_props s _ name st _ _ abs size corr oor s2
            ?_ ?_ hs h
          · exact hstruct
          · exact hbin
        · exact reconcile_done_props s s1 name st _ _ abs size corr oor s2
            hstruct hbin hs h

/-- Witness for C9: analyzing X (declared offset 0x10, no declared size)
discovers (5, 2) on the 24-byte image, emits a correction, and the
region 5..7 is in range. -/
theorem reconciler_correction_iff_witness :
    ((some [("X", (⟨"0x5", "0x2", "", ""⟩ : StructDesc))] = none) ↔
      ((declaredSizeOffset ⟨"0x10", "", "", ""⟩).1 = some ((2 : Nat) : Int) ∧
       (declaredSizeOffset ⟨"0x10", "", "", ""⟩).2 = some 5)) ∧
    (false = decide ((5 : Int) < 0 ∨ (5 : Int) + ((2 : Nat) : Int) >
      (exOverwriteResolved.binary_data.length : Int))) := by
  have hc := reconciler_correction_iff exOverwriteResolved "X"
    ⟨"0x10", "", "", ""⟩ 5 2 (some [("X", ⟨"0x5", "0x2", "", ""⟩)]) false
    ⟨[("X", ⟨"0x5", "0x2", "", ""⟩)], exBin24, [("X", 5)], [("X", 2)]⟩
    (by decide) (by rfl)
  exact ⟨hc.1, hc.2.2.2⟩
